import Mathlib

/-!
Verification of the OpenClaude session & stream orchestration layer.

Shallow embedding of the Python sources under `src/bot/`:
`sessions.py` (Session Registry), `streams.py` (Generation Ledger),
`claude.py` (`_stream_claude_sdk` / `_stream_claude_subprocess`),
`handlers.py` (batching, per-user locks, `run_with_streaming`) and
`app.py` (`post_init` restart recovery).

Python dicts are modelled as association lists with insertion-order
semantics; each JSON-backed file is `Option dict` (`none` = file absent).
The two streaming generators are modelled as functions from their
environment (connect outcomes, message feed, terminating exception,
process exit status) to a trace of actions; the emitted event sequence
is the projection of that trace onto `yieldEv` actions.
-/

namespace OpenClaude

/-! ### Python dict model -/

/-- `d.get(k)`: first binding of `k` in the association list. -/
def dget {α : Type} : List (String × α) → String → Option α
  | [], _ => none
  | (k', v') :: rest, k => if k' = k then some v' else dget rest k

/-- `d[k] = v`: replace the binding in place, or append when absent. -/
def dinsert {α : Type} : List (String × α) → String → α → List (String × α)
  | [], k, v => [(k, v)]
  | (k', v') :: rest, k, v =>
      if k' = k then (k, v) :: rest else (k', v') :: dinsert rest k v

/-- `d.pop(k, None)` / `del d[k]`: drop the first binding of `k`. -/
def dpop {α : Type} : List (String × α) → String → List (String × α)
  | [], _ => []
  | (k', v') :: rest, k => if k' = k then rest else (k', v') :: dpop rest k

def dkeys {α : Type} (d : List (String × α)) : List String := d.map Prod.fst

/-- A Python dict never holds two bindings for one key. -/
abbrev keysNodup {α : Type} (d : List (String × α)) : Prop := (dkeys d).Nodup

/-- `d.update(l)`: fold the bindings of `l` into `d`. -/
def dictUpdate {α : Type} (d : List (String × α)) (l : List (String × α)) :
    List (String × α) :=
  l.foldl (fun acc p => dinsert acc p.1 p.2) d

theorem dget_dinsert_self {α : Type} (d : List (String × α)) (k : String) (v : α) :
    dget (dinsert d k v) k = some v := by
  induction d with
  | nil => simp [dinsert, dget]
  | cons hd tl ih =>
      obtain ⟨k', v'⟩ := hd
      by_cases h : k' = k
      · simp [dinsert, dget, h]
      · simp [dinsert, dget, h, ih]

theorem mem_dkeys_dinsert {α : Type} (d : List (String × α)) (k x : String) (v : α) :
    x ∈ dkeys (dinsert d k v) ↔ x = k ∨ x ∈ dkeys d := by
  induction d with
  | nil => simp [dinsert, dkeys]
  | cons hd tl ih =>
      obtain ⟨k', v'⟩ := hd
      by_cases h : k' = k
      · subst h
        simp [dinsert, dkeys]
      · simp [dinsert, dkeys, h] at ih ⊢
        tauto

theorem keysNodup_dinsert {α : Type} (d : List (String × α)) (k : String) (v : α)
    (h : keysNodup d) : keysNodup (dinsert d k v) := by
  induction d with
  | nil => simp [dinsert, keysNodup, dkeys]
  | cons hd tl ih =>
      obtain ⟨k', v'⟩ := hd
      have hn : k' ∉ dkeys tl ∧ keysNodup tl := by
        simpa [keysNodup, dkeys] using h
      by_cases hk : k' = k
      · subst hk
        simpa [dinsert, keysNodup, dkeys] using hn
      · have htl := ih hn.2
        have hmem : k' ∉ dkeys (dinsert tl k v) := by
          intro hmem
          rcases (mem_dkeys_dinsert tl k k' v).mp hmem with h1 | h1
          · exact hk h1
          · exact hn.1 h1
        have hgoal : keysNodup ((k', v') :: dinsert tl k v) := by
          simp only [keysNodup, dkeys, List.map_cons, List.nodup_cons]
          exact ⟨by simpa [dkeys] using hmem, by simpa [keysNodup, dkeys] using htl⟩
        simpa [dinsert, hk] using hgoal

theorem keysNodup_dictUpdate {α : Type} (d : List (String × α))
    (l : List (String × α)) (h : keysNodup d) : keysNodup (dictUpdate d l) := by
  induction l generalizing d with
  | nil => simpa [dictUpdate] using h
  | cons hd tl ih =>
      obtain ⟨k, v⟩ := hd
      simpa [dictUpdate] using ih (dinsert d k v) (keysNodup_dinsert d k v h)

theorem dget_dpop_self {α : Type} (d : List (String × α)) (k : String)
    (h : keysNodup d) : dget (dpop d k) k = none := by
  induction d with
  | nil => simp [dpop, dget]
  | cons hd tl ih =>
      obtain ⟨k', v'⟩ := hd
      have hn : k' ∉ dkeys tl ∧ keysNodup tl := by
        simpa [keysNodup, dkeys] using h
      by_cases hk : k' = k
      · subst hk
        simp only [dpop, if_pos rfl]
        clear ih h
        induction tl with
        | nil => simp [dget]
        | cons hd2 tl2 ih2 =>
            obtain ⟨k2, v2⟩ := hd2
            have hk2 : k2 ≠ k' := fun hEq => hn.1 (by simp [dkeys, hEq])
            have hn2 : k' ∉ dkeys tl2 ∧ keysNodup tl2 := by
              refine ⟨fun hm => hn.1 (by simp [dkeys] at hm ⊢; exact Or.inr hm), ?_⟩
              have := hn.2
              simp only [keysNodup, dkeys, List.map_cons, List.nodup_cons] at this
              exact this.2
            simpa [dget, hk2] using ih2 hn2
      · simp [dpop, dget, hk, ih hn.2]

/-- Under `keysNodup`, looking a key up pins down the whole filtered sublist. -/
theorem filter_eq_of_dget {α : Type} (d : List (String × α)) (k : String) (v : α)
    (hnd : keysNodup d) (hget : dget d k = some v) :
    d.filter (fun p => p.1 == k) = [(k, v)] := by
  induction d with
  | nil => simp [dget] at hget
  | cons hd tl ih =>
      obtain ⟨k', v'⟩ := hd
      have hn : k' ∉ dkeys tl ∧ keysNodup tl := by
        simpa [keysNodup, dkeys] using hnd
      by_cases hk : k' = k
      · subst hk
        have hv : v' = v := by simpa [dget] using hget
        subst hv
        have hnil : tl.filter (fun p => p.1 == k') = [] := by
          apply List.filter_eq_nil_iff.mpr
          intro p hp hbeq
          exact hn.1 (by
            have hp1 : p.1 = k' := by simpa using hbeq
            simpa [dkeys, hp1] using List.mem_map_of_mem Prod.fst hp)
        simp [List.filter_cons, hnil]
      · have hget' : dget tl k = some v := by simpa [dget, hk] using hget
        have hne : (k' == k) = false := by simpa using hk
        simp [List.filter_cons, hne, ih hn.2 hget']

/-! ### `sessions.py` — Session Registry -/

/-- `session_key(chat_id, thread_id, user_id)`: composite key
`"chat:thread:user"`. -/
def session_key (chat_id thread_id user_id : Int) : String :=
  toString chat_id ++ ":" ++ toString thread_id ++ ":" ++ toString user_id

/-- One value of the sessions table:
`{"session_id": ..., "updated_at": ...}` (either field may be missing). -/
structure SessionEntry where
  sid : Option String
  updated_at : Option String
deriving DecidableEq

/-- The sessions file on disk: `none` when `SESSION_FILE` does not exist. -/
abbrev SessionsFile := Option (List (String × SessionEntry))

/-- `load_sessions()`: missing (or malformed) file yields an empty table. -/
def load_sessions (f : SessionsFile) : List (String × SessionEntry) :=
  f.getD []

/-- `get_session_id(chat_id, thread_id, user_id)`:
`sessions.get(key, {}).get("session_id")`. -/
def get_session_id (f : SessionsFile) (chat_id thread_id user_id : Int) :
    Option String :=
  ((dget (load_sessions f) (session_key chat_id thread_id user_id)).getD
    ⟨none, none⟩).sid

/-- `set_session_id(chat_id, thread_id, user_id, sid)`:
`setdefault(key, {})["session_id"] = sid`, stamp `updated_at`, save. -/
def set_session_id (f : SessionsFile) (chat_id thread_id user_id : Int)
    (sid : String) (now : String) : SessionsFile :=
  let sessions := load_sessions f
  let key := session_key chat_id thread_id user_id
  let entry := (dget sessions key).getD ⟨none, none⟩
  some (dinsert sessions key { entry with sid := some sid, updated_at := some now })

/-- `clear_session(chat_id, thread_id, user_id)`: delete the key and save
only when it was present (otherwise the file is untouched). -/
def clear_session (f : SessionsFile) (chat_id thread_id user_id : Int) :
    SessionsFile :=
  let sessions := load_sessions f
  let key := session_key chat_id thread_id user_id
  if (dget sessions key).isSome then some (dpop sessions key) else f

/-! ### `streams.py` — Generation Ledger -/

/-- One ledger value: `{"chat_id": c, "thread_id": t, "user_id": u}`. -/
structure StreamEntry where
  chat_id : Int
  thread_id : Int
  user_id : Int
deriving DecidableEq

/-- The active-streams file: `none` when `ACTIVE_STREAMS_FILE` is absent. -/
abbrev LedgerFile := Option (List (String × StreamEntry))

/-- `load_active_streams()`: missing or malformed file reads as empty. -/
def load_active_streams (f : LedgerFile) : List (String × StreamEntry) :=
  f.getD []

/-- `add_active_stream(chat_id, thread_id, user_id)`: insert and save. -/
def add_active_stream (f : LedgerFile) (chat_id thread_id user_id : Int) :
    LedgerFile :=
  some (dinsert (load_active_streams f) (session_key chat_id thread_id user_id)
    ⟨chat_id, thread_id, user_id⟩)

/-- `remove_active_stream(chat_id, thread_id, user_id)`: pop the key; save,
or delete the backing file when the table became empty. -/
def remove_active_stream (f : LedgerFile) (chat_id thread_id user_id : Int) :
    LedgerFile :=
  let streams := dpop (load_active_streams f) (session_key chat_id thread_id user_id)
  if streams.isEmpty then none else some streams

/-! ### `claude.py` — tool status formatting -/

/-- `pathlib.Path(p).name`: final nonempty path component. -/
def pathName (p : String) : String :=
  ((p.splitOn "/").filter (fun s => !s.isEmpty)).getLastD ""

/-- `format_tool_status(tool_name, tool_input)`; `tool_input` is the
JSON object of the tool call, modelled as a string-valued dict. -/
def format_tool_status (tool_name : String)
    (tool_input : List (String × String)) : String :=
  if tool_name = "Read" then
    "📄 Reading " ++ pathName ((dget tool_input "file_path").getD "file") ++ "..."
  else if tool_name = "Glob" then
    "🔍 Searching " ++ (dget tool_input "pattern").getD "" ++ "..."
  else if tool_name = "Grep" then
    "🔍 Searching for \"" ++ (dget tool_input "pattern").getD "" ++ "\"..."
  else if tool_name = "Bash" then
    let cmd := (dget tool_input "command").getD ""
    if !cmd.isEmpty then
      let short_cmd := if 60 < cmd.length then cmd.take 60 ++ "…" else cmd
      "⚙️ `" ++ short_cmd ++ "`"
    else
      let desc := (dget tool_input "description").getD ""
      if !desc.isEmpty then "⚙️ " ++ desc
      else "⚙️ Running command..."
  else if tool_name = "Write" ∨ tool_name = "Edit" then
    "✏️ Editing " ++ pathName ((dget tool_input "file_path").getD "file") ++ "..."
  else if tool_name = "WebSearch" then
    "🌐 Searching web..."
  else if tool_name = "WebFetch" then
    "🌐 Fetching " ++ ((dget tool_input "url").getD "").take 60 ++ "..."
  else if tool_name = "Task" then
    "🤖 Delegating to sub-agent..."
  else
    "🔧 Using " ++ tool_name ++ "..."

/-! ### `claude.py` — events, actions, feeds -/

/-- Python truthiness of an optional string (`None` and `""` are falsy). -/
def truthyS : Option String → Bool
  | none => false
  | some s => !s.isEmpty

def leadsWith : List Char → List Char → Bool
  | [], _ => true
  | _ :: _, [] => false
  | a :: as, b :: bs => a = b && leadsWith as bs

def hasSeqAux (pat : List Char) : List Char → Bool
  | [] => pat.isEmpty
  | c :: rest => leadsWith pat (c :: rest) || hasSeqAux pat rest

/-- Python `pat in s` on strings. -/
def strHas (s pat : String) : Bool := hasSeqAux pat.toList s.toList

/-- The normalized events yielded by `stream_claude` (the dicts with a
`"type"` field). -/
inductive Event
  | toolUse (status : String)
  | toolResult
  | partialText (text : String)
  | result (text : String) (sid : Option String)
  | error (text : String)
  | silent
deriving DecidableEq

/-- Observable actions of one streaming-generator run, in program order:
ledger writes (`add_active_stream` / `remove_active_stream`), connection
lifecycle, the agent call itself, Session Registry writes and yields. -/
inductive Action
  | ledgerAdd (chat_id thread_id user_id : Int)
  | ledgerRemove (chat_id thread_id user_id : Int)
  | connectAttempt
  | disconnect
  | newHandle
  | query
  | spawn
  | kill
  | setSession (sid : String)
  | yieldEv (e : Event)
deriving DecidableEq

/-- The event sequence a consumer of the generator sees. -/
def eventsOf (l : List Action) : List Event :=
  l.filterMap fun a =>
    match a with
    | .yieldEv e => some e
    | _ => none

/-- Interpret the ledger actions of a trace against the backing file. -/
def applyLedger (f : LedgerFile) : List Action → LedgerFile
  | [] => f
  | .ledgerAdd c t u :: rest => applyLedger (add_active_stream f c t u) rest
  | .ledgerRemove c t u :: rest => applyLedger (remove_active_stream f c t u) rest
  | _ :: rest => applyLedger f rest

/-! ### `_stream_claude_sdk` -/

inductive SDKBlock
  | toolUseB (name : String) (input : List (String × String))
  | toolResultB
  | textB
deriving DecidableEq

/-- One parsed message from `receive_response`; `skip` is the `None`
produced by the patched message parser for unknown message types. -/
inductive SDKMsg
  | assistant (blocks : List SDKBlock)
  | streamEvent (deltaType : String) (text : String)
  | resultMsg (result : Option String) (sid : Option String)
  | skip
deriving DecidableEq

/-- One iteration of the `receive_response` loop in `_stream_claude_sdk`:
the actions performed and the updated `result_text`. -/
def sdkStep (verbose : Bool) (m : SDKMsg) (rt : Option String) :
    List Action × Option String :=
  match m with
  | .assistant blocks =>
      let acts := blocks.filterMap fun b =>
        match b with
        | .toolUseB nm inp =>
            some (Action.yieldEv (.toolUse (format_tool_status nm inp)))
        | .toolResultB => some (.yieldEv .toolResult)
        | .textB => none
      (acts, rt)
  | .streamEvent dt txt =>
      (if verbose && dt == "text_delta" && !txt.isEmpty
        then [.yieldEv (.partialText txt)] else [], rt)
  | .resultMsg r s =>
      ((if truthyS s then [.setSession (s.getD "")] else []) ++
        [.yieldEv (.result (r.getD "") s)], some (r.getD ""))
  | .skip => ([], rt)

/-- The `receive_response` loop over a timed feed. The arrival times are
deliberately never consulted: `_stream_claude_sdk` enforces no deadline. -/
def sdkLoop (verbose : Bool) : List (Nat × SDKMsg) → Option String →
    List Action × Option String
  | [], rt => ([], rt)
  | (_, m) :: rest, rt =>
      let s := sdkStep verbose m rt
      let r := sdkLoop verbose rest s.2
      (s.1 ++ r.1, r.2)

/-- Environment of one `_stream_claude_sdk` run. `connect1`/`connect2` are
the outcomes of the two `ensure_connected` attempts (`some e` = attempt
raised exception text `e`); `feed` are the messages `receive_response`
produced; `exc` is an exception ending the receive loop after `feed`;
`preExc` is an exception before the connect phase, caught by the outer
handler. -/
structure SDKEnv where
  connect1 : Option String
  connect2 : Option String
  feed : List (Nat × SDKMsg)
  exc : Option String
  preExc : Option String
deriving DecidableEq

/-- The expected-termination test of `_stream_claude_sdk`:
`"exit code -15" in err_str or "exit code: -15" in err_str`. -/
def isSigtermErr (e : String) : Bool :=
  strHas e "exit code -15" || strHas e "exit code: -15"

/-- The inner try of `_stream_claude_sdk` after a successful connect:
`query`, the receive loop, then exception / no-result handling. -/
def sdkBody (verbose : Bool) (feed : List (Nat × SDKMsg))
    (exc : Option String) : List Action :=
  let lp := sdkLoop verbose feed none
  Action.query :: lp.1 ++
    (match exc with
     | some e =>
         if isSigtermErr e then [.disconnect, .yieldEv .silent]
         else
           Action.disconnect ::
             (if lp.2.isNone then [.yieldEv (.error ("Claude error: " ++ e))] else [])
     | none =>
         if lp.2.isNone then [.yieldEv (.error "Claude returned no result.")] else [])

/-- `_stream_claude_sdk` as an action trace: `add_active_stream` is the
first statement, `remove_active_stream` runs in the `finally`, and the
connect phase retries exactly once with a freshly constructed handle. -/
def sdkStream (chat_id thread_id user_id : Int) (verbose : Bool)
    (env : SDKEnv) : List Action :=
  Action.ledgerAdd chat_id thread_id user_id ::
    ((match env.preExc with
      | some e => [.yieldEv (.error ("Unexpected error: " ++ e))]
      | none =>
          Action.connectAttempt ::
            (match env.connect1 with
             | none => sdkBody verbose env.feed env.exc
             | some _ =>
                 Action.disconnect :: Action.newHandle :: Action.connectAttempt ::
                   (match env.connect2 with
                    | none => sdkBody verbose env.feed env.exc
                    | some e2 =>
                        [.yieldEv (.error ("Failed to connect to Claude: " ++ e2))]))) ++
      [.ledgerRemove chat_id thread_id user_id])

/-! ### `_stream_claude_subprocess` -/

inductive SubBlock
  | toolUseB (name : String) (input : List (String × String))
  | otherB
deriving DecidableEq

/-- One decoded stdout line of the CLI in `stream-json` mode. `blank`
strips to empty; `nonJson` fails `json.loads`; `otherType` is a JSON
event of an unhandled type. -/
inductive SubMsg
  | blank
  | nonJson
  | assistant (blocks : List SubBlock)
  | toolResult
  | streamEvent (deltaType : String) (text : String)
  | resultMsg (result : String) (sid : Option String)
  | otherType
deriving DecidableEq

/-- One line dispatch of the `_stream_claude_subprocess` read loop. -/
def subStep (verbose : Bool) (m : SubMsg) (rt : Option String) :
    List Action × Option String :=
  match m with
  | .blank => ([], rt)
  | .nonJson => ([], rt)
  | .assistant blocks =>
      let acts := blocks.filterMap fun b =>
        match b with
        | .toolUseB nm inp =>
            some (Action.yieldEv (.toolUse (format_tool_status nm inp)))
        | .otherB => none
      (acts, rt)
  | .toolResult => ([.yieldEv .toolResult], rt)
  | .streamEvent dt txt =>
      (if verbose && dt == "text_delta" && !txt.isEmpty
        then [.yieldEv (.partialText txt)] else [], rt)
  | .resultMsg r s =>
      ((if truthyS s then [.setSession (s.getD "")] else []) ++
        [.yieldEv (.result r s)], some r)
  | .otherType => ([], rt)

/-- `CLAUDE_TIMEOUT = 300` (seconds) from `config.py`. -/
def CLAUDE_TIMEOUT : Nat := 300

/-- `proc.kill()` followed by the timeout error, as both timeout branches
of the read loop do. -/
def timeoutActs : List Action :=
  [.kill,
   .yieldEv (.error "Claude took too long to respond. Try again or /new to start fresh.")]

/-- The readline loop of `_stream_claude_subprocess` over a timed feed.
`now` is the loop time; entering the loop at or past the deadline, or a
line arriving past it, kills the process and yields the timeout error.
Returns `none` when the generator returned inside the loop (timeout), or
the loop time and `result_text` at end of feed. -/
def subLoop (verbose : Bool) (deadline : Nat) :
    Nat → List (Nat × SubMsg) → Option String →
    List Action × Option (Nat × Option String)
  | now, [], rt => ([], some (now, rt))
  | now, (arrival, m) :: rest, rt =>
      if deadline ≤ now then (timeoutActs, none)
      else if deadline < arrival then (timeoutActs, none)
      else
        let s := subStep verbose m rt
        let r := subLoop verbose deadline arrival rest s.2
        (s.1 ++ r.1, r.2)

/-- Environment of one `_stream_claude_subprocess` run: the timed stdout
lines, when (if ever) stdout reaches EOF, the exit status and stderr of
the CLI process, whether spawning raised `FileNotFoundError`, and an
optional exception caught by the generic handler. -/
structure SubEnv where
  lines : List (Nat × SubMsg)
  eofAt : Option Nat
  returncode : Int
  stderrText : String
  spawnFail : Bool
  preExc : Option String
deriving DecidableEq

/-- `stderr_data.decode().strip() if stderr_data else "Unknown error"`. -/
def cliErrMsg (stderrText : String) : String :=
  if stderrText.isEmpty then "Unknown error" else stderrText.trim

/-- After the read loop breaks on EOF: `proc.wait()` and the returncode
dispatch (negative = killed by a signal). -/
def subExitActs (returncode : Int) (stderrText : String)
    (rt : Option String) : List Action :=
  if returncode ≠ 0 then
    if returncode < 0 then
      if rt.isNone then [.yieldEv .silent] else []
    else
      if rt.isNone then
        [.yieldEv (.error ("Claude CLI error:\n" ++ cliErrMsg stderrText))]
      else []
  else
    if rt.isNone then [.yieldEv (.error "Claude returned no result.")] else []

/-- The `readline` that returns `b""` is itself subject to the deadline
checks; a stream that never closes (`eofAt = none`) times out. -/
def subEof (deadline : Nat) (env : SubEnv) (now : Nat)
    (rt : Option String) : List Action :=
  if deadline ≤ now then timeoutActs
  else
    match env.eofAt with
    | none => timeoutActs
    | some te =>
        if deadline < te then timeoutActs
        else subExitActs env.returncode env.stderrText rt

/-- The spawned-process part of `_stream_claude_subprocess`. -/
def subRun (verbose : Bool) (env : SubEnv) : List Action :=
  let lp := subLoop verbose CLAUDE_TIMEOUT 0 env.lines none
  lp.1 ++
    (match lp.2 with
     | none => []
     | some (now, rt) => subEof CLAUDE_TIMEOUT env now rt)

/-- `_stream_claude_subprocess` as an action trace. -/
def subStream (chat_id thread_id user_id : Int) (verbose : Bool)
    (env : SubEnv) : List Action :=
  Action.ledgerAdd chat_id thread_id user_id ::
    ((match env.preExc with
      | some e => [.yieldEv (.error ("Unexpected error: " ++ e))]
      | none =>
          if env.spawnFail then
            [.yieldEv (.error "Error: Claude CLI not found. Make sure \x27claude\x27 is installed and available in PATH.")]
          else Action.spawn :: subRun verbose env) ++
      [.ledgerRemove chat_id thread_id user_id])

/-- `stream_claude`: dispatch on `HAS_SDK`. -/
def stream_claude_trace (hasSDK : Bool) (chat_id thread_id user_id : Int)
    (verbose : Bool) (envS : SDKEnv) (envP : SubEnv) : List Action :=
  if hasSDK then sdkStream chat_id thread_id user_id verbose envS
  else subStream chat_id thread_id user_id verbose envP

/-! ### `handlers.py` — batching and the per-user lock -/

/-- Requester identity used for sessions and locks: the user id in
private chats, the shared identity `0` in group chats. -/
def session_user_id (isPrivate : Bool) (user_id : Int) : Int :=
  if isPrivate then user_id else 0

/-- Python `sep.join(xs)`. -/
def joinSep (sep : String) : List String → String
  | [] => ""
  | [x] => x
  | x :: rest => x ++ sep ++ joinSep sep rest

/-- One call into `run_with_streaming` produced by a flush. `α` is the
opaque `(update, context)` delivery context. -/
structure GenCall (α : Type) where
  prompt : String
  ctx : α
  chat_id : Int
  thread_id : Int
  user_id : Int
deriving DecidableEq

/-- The four module-level batching dicts of `handlers.py`
(`_batch_buffers`, `_batch_updates`, `_batch_meta`, `_batch_timers`),
with a counter supplying fresh `call_later` handles. -/
structure BatchState (α : Type) where
  buffers : List (String × List String)
  updates : List (String × α)
  meta : List (String × (Int × Int × Int))
  timers : List (String × Nat)
  nextTimer : Nat

def emptyBatch (α : Type) : BatchState α := ⟨[], [], [], [], 0⟩

/-- `queue_message`: append to the buffer, overwrite the latest
context/meta, cancel any armed timer for the key and arm a fresh one. -/
def queue_message {α : Type} (st : BatchState α) (isPrivate : Bool)
    (chat_id thread_id user_id : Int) (ctx : α) (claude_message : String) :
    BatchState α :=
  let key := session_key chat_id thread_id (session_user_id isPrivate user_id)
  { buffers := dinsert st.buffers key ((dget st.buffers key).getD [] ++ [claude_message])
    updates := dinsert st.updates key ctx
    meta := dinsert st.meta key (chat_id, thread_id, user_id)
    timers := dinsert st.timers key st.nextTimer
    nextTimer := st.nextTimer + 1 }

/-- `_flush_batch`: pop all four dicts; no-op when the buffer, the
context or the meta is missing; otherwise join the texts in arrival
order and call `run_with_streaming` with the latest context. -/
def flush_batch {α : Type} (st : BatchState α) (key : String) :
    Option (GenCall α) × BatchState α :=
  let messages := (dget st.buffers key).getD []
  let update_ctx := dget st.updates key
  let m := dget st.meta key
  let st' : BatchState α :=
    { buffers := dpop st.buffers key
      updates := dpop st.updates key
      meta := dpop st.meta key
      timers := dpop st.timers key
      nextTimer := st.nextTimer }
  if messages.isEmpty then (none, st')
  else
    match update_ctx, m with
    | some ctx, some (c, t, u) =>
        let combined :=
          match messages with
          | [single] => single
          | _ => joinSep "\n\n" messages
        (some ⟨combined, ctx, c, t, u⟩, st')
    | _, _ => (none, st')

/-- Lock-relevant skeleton of the call paths into `stream_claude`. -/
inductive LockAction
  | acquire (lock_id : Int)
  | agentCall (chat_id thread_id user_id : Int)
  | release (lock_id : Int)
deriving DecidableEq

/-- `run_with_streaming`: `async with _get_user_lock(session_user_id)`
wrapped around the `stream_claude` call (`_user_locks` is keyed by the
requester id alone). -/
def run_with_streaming_locks (isPrivate : Bool)
    (chat_id thread_id user_id : Int) : List LockAction :=
  let su := session_user_id isPrivate user_id
  [.acquire su, .agentCall chat_id thread_id su, .release su]

/-- Checks that every `agentCall` happens while a lock keyed by its
requester id is held. -/
def callsUnderLock (held : List Int) : List LockAction → Bool
  | [] => true
  | .acquire l :: rest => callsUnderLock (l :: held) rest
  | .release l :: rest => callsUnderLock (held.erase l) rest
  | .agentCall _ _ u :: rest => held.contains u && callsUnderLock held rest

/-! ### `app.py` — `post_init` restart recovery -/

/-- `_resume_chat` reaches `stream_claude` only when the Session
Registry has a truthy session id for the entry (the guard is Python
`if not session_id:`, so a missing *or empty-string* id skips the key);
it acquires no lock. -/
def resume_chat_locks (sess : SessionsFile) (e : StreamEntry) :
    List LockAction :=
  if truthyS (get_session_id sess e.chat_id e.thread_id e.user_id) then
    [.agentCall e.chat_id e.thread_id e.user_id]
  else []

/-- The `interrupted` map of `post_init`: `{}` updated with the restart
snapshot, then with the active-streams ledger. -/
def collect_interrupted (rs asf : LedgerFile) : List (String × StreamEntry) :=
  dictUpdate (dictUpdate [] (load_active_streams rs)) (load_active_streams asf)

/-- The `_resume_chat` invocations that issue a resumption generation:
exactly the interrupted entries whose key has a truthy session id — the
guard is Python `if not session_id:` (falsy for `None` and `""`); the
rest log a warning and return. -/
def resume_calls (sess : SessionsFile)
    (interrupted : List (String × StreamEntry)) :
    List (String × StreamEntry) :=
  interrupted.filter fun p =>
    truthyS (get_session_id sess p.2.chat_id p.2.thread_id p.2.user_id)

/-- `post_init` recovery: the resumption calls issued, and the restart
snapshot / active-streams files after startup (both unlinked in the
`finally` of the reading loop, before any generation runs). -/
def post_init_recovery (rs asf : LedgerFile) (sess : SessionsFile) :
    List (String × StreamEntry) × LedgerFile × LedgerFile :=
  (resume_calls sess (collect_interrupted rs asf), none, none)

/-- Each `_resume_chat` body is wrapped in its own try/except, so every
issued call produces an outcome regardless of the other keys (`true` =
resumed, `false` = failure caught and logged). `fails` says which keys
fail. -/
def recovery_outcomes (sess : SessionsFile) (rs asf : LedgerFile)
    (fails : String → Bool) : List (String × Bool) :=
  (resume_calls sess (collect_interrupted rs asf)).map fun p => (p.1, !fails p.1)

/-- Lock skeleton of the whole recovery phase: the concatenation of the
per-entry `_resume_chat` skeletons. -/
def recovery_locks (sess : SessionsFile) :
    List (String × StreamEntry) → List LockAction
  | [] => []
  | p :: rest => resume_chat_locks sess p.2 ++ recovery_locks sess rest

/-- Number of agent calls for one ConversationKey in a lock trace. -/
def countCallsFor (l : List LockAction) (chat_id thread_id user_id : Int) :
    Nat :=
  (l.filter fun a =>
    match a with
    | .agentCall c t u => c == chat_id && t == thread_id && u == user_id
    | _ => false).length

/-- Well-formedness of a ledger dict as written by `add_active_stream`:
each binding is keyed by the `session_key` of its entry. -/
abbrev wfLedgerDict (d : List (String × StreamEntry)) : Prop :=
  ∀ p ∈ d, p.1 = session_key p.2.chat_id p.2.thread_id p.2.user_id

/-! ### Trace predicates -/

/-- Terminal events: `result`, `error`, `silent`. -/
def isTerminal : Event → Bool
  | .result _ _ => true
  | .error _ => true
  | .silent => true
  | _ => false

def isTermAct : Action → Bool
  | .yieldEv e => isTerminal e
  | _ => false

/-- The trace yields at least one terminal event. -/
def hasTerminal (l : List Action) : Bool := l.any isTermAct

def isErrAct : Action → Bool
  | .yieldEv (.error _) => true
  | _ => false

/-- The trace yields at least one error event. -/
def hasErrorEv (l : List Action) : Bool := l.any isErrAct

def isKillAct : Action → Bool
  | .kill => true
  | _ => false

def hasKill (l : List Action) : Bool := l.any isKillAct

def isQueryAct : Action → Bool
  | .query => true
  | _ => false

/-- Actions that neither write the Session Registry nor yield a result. -/
def plainAct : Action → Bool
  | .setSession _ => false
  | .yieldEv (.result _ _) => false
  | _ => true

/-- Session-Registry write discipline: every `setSession` is immediately
followed by the yield of a result carrying that (nonempty) session id,
and every yielded result carrying a truthy session id is immediately
preceded by its `setSession`. -/
def regOkAux : Option String → List Action → Bool
  | some _, [] => false
  | none, [] => true
  | pending, a :: rest =>
      match pending, a with
      | some sid, .yieldEv (.result _ s) =>
          (s == some sid) && regOkAux none rest
      | some _, _ => false
      | none, .setSession sid => !sid.isEmpty && regOkAux (some sid) rest
      | none, .yieldEv (.result _ s) => !truthyS s && regOkAux none rest
      | none, _ => regOkAux none rest

def regOk (l : List Action) : Bool := regOkAux none l

/-! ### Trace lemmas -/

theorem hasTerminal_append (a b : List Action) :
    hasTerminal (a ++ b) = (hasTerminal a || hasTerminal b) := by
  simp [hasTerminal]

theorem hasErrorEv_append (a b : List Action) :
    hasErrorEv (a ++ b) = (hasErrorEv a || hasErrorEv b) := by
  simp [hasErrorEv]

theorem eventsOf_append (a b : List Action) :
    eventsOf (a ++ b) = eventsOf a ++ eventsOf b := by
  simp [eventsOf]

theorem regOkAux_append (b : List Action) (hb : regOkAux none b = true)
    (a : List Action) : ∀ p, regOkAux p a = true → regOkAux p (a ++ b) = true := by
  induction a with
  | nil =>
      intro p ha
      cases p with
      | none => simpa using hb
      | some s => simp [regOkAux] at ha
  | cons x xs ih =>
      intro p ha
      cases p with
      | none =>
          cases x with
          | setSession sid =>
              simp only [regOkAux, List.cons_append] at ha ⊢
              simp only [Bool.and_eq_true] at ha ⊢
              exact ⟨ha.1, ih _ ha.2⟩
          | yieldEv e =>
              cases e with
              | result t s =>
                  simp only [regOkAux, List.cons_append] at ha ⊢
                  simp only [Bool.and_eq_true] at ha ⊢
                  exact ⟨ha.1, ih _ ha.2⟩
              | toolUse s =>
                  simp only [regOkAux, List.cons_append] at ha ⊢
                  exact ih _ ha
              | toolResult =>
                  simp only [regOkAux, List.cons_append] at ha ⊢
                  exact ih _ ha
              | partialText s =>
                  simp only [regOkAux, List.cons_append] at ha ⊢
                  exact ih _ ha
              | error s =>
                  simp only [regOkAux, List.cons_append] at ha ⊢
                  exact ih _ ha
              | silent =>
                  simp only [regOkAux, List.cons_append] at ha ⊢
                  exact ih _ ha
          | ledgerAdd c t u =>
              simp only [regOkAux, List.cons_append] at ha ⊢
              exact ih _ ha
          | ledgerRemove c t u =>
              simp only [regOkAux, List.cons_append] at ha ⊢
              exact ih _ ha
          | connectAttempt =>
              simp only [regOkAux, List.cons_append] at ha ⊢
              exact ih _ ha
          | disconnect =>
              simp only [regOkAux, List.cons_append] at ha ⊢
              exact ih _ ha
          | newHandle =>
              simp only [regOkAux, List.cons_append] at ha ⊢
              exact ih _ ha
          | query =>
              simp only [regOkAux, List.cons_append] at ha ⊢
              exact ih _ ha
          | spawn =>
              simp only [regOkAux, List.cons_append] at ha ⊢
              exact ih _ ha
          | kill =>
              simp only [regOkAux, List.cons_append] at ha ⊢
              exact ih _ ha
      | some sid =>
          cases x with
          | yieldEv e =>
              cases e with
              | result t s =>
                  simp only [regOkAux, List.cons_append] at ha ⊢
                  simp only [Bool.and_eq_true] at ha ⊢
                  exact ⟨ha.1, ih _ ha.2⟩
              | toolUse s => simp [regOkAux] at ha
              | toolResult => simp [regOkAux] at ha
              | partialText s => simp [regOkAux] at ha
              | error s => simp [regOkAux] at ha
              | silent => simp [regOkAux] at ha
          | setSession s => simp [regOkAux] at ha
          | ledgerAdd c t u => simp [regOkAux] at ha
          | ledgerRemove c t u => simp [regOkAux] at ha
          | connectAttempt => simp [regOkAux] at ha
          | disconnect => simp [regOkAux] at ha
          | newHandle => simp [regOkAux] at ha
          | query => simp [regOkAux] at ha
          | spawn => simp [regOkAux] at ha
          | kill => simp [regOkAux] at ha

/-- A list of plain actions satisfies the registry discipline. -/
theorem regOkAux_of_plain (l : List Action) (h : ∀ a ∈ l, plainAct a = true) :
    regOkAux none l = true := by
  induction l with
  | nil => simp [regOkAux]
  | cons x xs ih =>
      have hx : plainAct x = true := h x (by simp)
      have hxs : regOkAux none xs = true := ih fun a ha => h a (by simp [ha])
      cases x with
      | setSession sid => simp [plainAct] at hx
      | yieldEv e =>
          cases e with
          | result t s => simp [plainAct] at hx
          | toolUse s => simpa [regOkAux] using hxs
          | toolResult => simpa [regOkAux] using hxs
          | partialText s => simpa [regOkAux] using hxs
          | error s => simpa [regOkAux] using hxs
          | silent => simpa [regOkAux] using hxs
      | ledgerAdd c t u => simpa [regOkAux] using hxs
      | ledgerRemove c t u => simpa [regOkAux] using hxs
      | connectAttempt => simpa [regOkAux] using hxs
      | disconnect => simpa [regOkAux] using hxs
      | newHandle => simpa [regOkAux] using hxs
      | query => simpa [regOkAux] using hxs
      | spawn => simpa [regOkAux] using hxs
      | kill => simpa [regOkAux] using hxs

/-! ### SDK path lemmas -/

def isResultMsgS : SDKMsg → Bool
  | .resultMsg _ _ => true
  | _ => false

theorem sdkStep_regOk (verbose : Bool) (m : SDKMsg) (rt : Option String) :
    regOkAux none (sdkStep verbose m rt).1 = true := by
  cases m with
  | assistant blocks =>
      apply regOkAux_of_plain
      intro a ha
      simp only [sdkStep, List.mem_filterMap] at ha
      obtain ⟨b, hb, hfb⟩ := ha
      cases b with
      | toolUseB nm inp =>
          have hfb2 : Action.yieldEv (Event.toolUse (format_tool_status nm inp)) = a :=
            Option.some.inj hfb
          subst hfb2
          simp [plainAct]
      | toolResultB =>
          have hfb2 : Action.yieldEv Event.toolResult = a := Option.some.inj hfb
          subst hfb2
          simp [plainAct]
      | textB => exact Option.noConfusion hfb
  | streamEvent dt txt =>
      by_cases h : (verbose && dt == "text_delta" && !txt.isEmpty) = true
      · simp [sdkStep, h, regOkAux]
      · simp [sdkStep, h, regOkAux]
  | resultMsg r s =>
      cases s with
      | none => simp [sdkStep, truthyS, regOkAux]
      | some str =>
          by_cases h : str.isEmpty
          · simp [sdkStep, truthyS, h, regOkAux]
          · simp [sdkStep, truthyS, h, regOkAux]
  | skip => simp [sdkStep, regOkAux]

theorem sdkStep_no_error (verbose : Bool) (m : SDKMsg) (rt : Option String) :
    hasErrorEv (sdkStep verbose m rt).1 = false := by
  cases m with
  | assistant blocks =>
      simp only [hasErrorEv, List.any_eq_false, sdkStep]
      intro a ha
      simp only [List.mem_filterMap] at ha
      obtain ⟨b, hb, hfb⟩ := ha
      cases b with
      | toolUseB nm inp =>
          have hfb2 : Action.yieldEv (Event.toolUse (format_tool_status nm inp)) = a :=
            Option.some.inj hfb
          subst hfb2
          simp [isErrAct]
      | toolResultB =>
          have hfb2 : Action.yieldEv Event.toolResult = a := Option.some.inj hfb
          subst hfb2
          simp [isErrAct]
      | textB => exact Option.noConfusion hfb
  | streamEvent dt txt =>
      by_cases h : (verbose && dt == "text_delta" && !txt.isEmpty) = true <;>
        simp [sdkStep, h, hasErrorEv, isErrAct]
  | resultMsg r s =>
      by_cases h : truthyS s = true <;>
        simp [sdkStep, h, hasErrorEv, isErrAct]
  | skip => simp [sdkStep, hasErrorEv]

theorem sdkStep_result_terminal (verbose : Bool) (r s : Option String)
    (rt : Option String) :
    hasTerminal (sdkStep verbose (.resultMsg r s) rt).1 = true := by
  by_cases h : truthyS s = true <;>
    simp [sdkStep, h, hasTerminal, isTermAct, isTerminal]

theorem sdkLoop_regOk (verbose : Bool) (feed : List (Nat × SDKMsg)) :
    ∀ rt, regOkAux none (sdkLoop verbose feed rt).1 = true := by
  induction feed with
  | nil => intro rt; simp [sdkLoop, regOkAux]
  | cons hd tl ih =>
      intro rt
      obtain ⟨tm, m⟩ := hd
      simp only [sdkLoop]
      exact regOkAux_append _ (ih _) _ none (sdkStep_regOk verbose m rt)

theorem sdkLoop_no_error (verbose : Bool) (feed : List (Nat × SDKMsg)) :
    ∀ rt, hasErrorEv (sdkLoop verbose feed rt).1 = false := by
  induction feed with
  | nil => intro rt; simp [sdkLoop, hasErrorEv]
  | cons hd tl ih =>
      intro rt
      obtain ⟨tm, m⟩ := hd
      simp only [sdkLoop]
      rw [hasErrorEv_append]
      simp [sdkStep_no_error, ih]

theorem sdkLoop_terminal (verbose : Bool) (feed : List (Nat × SDKMsg)) :
    ∀ rt0, (sdkLoop verbose feed rt0).2.isSome = true →
      rt0.isSome = true ∨ hasTerminal (sdkLoop verbose feed rt0).1 = true := by
  induction feed with
  | nil => intro rt0 h; left; simpa [sdkLoop] using h
  | cons hd tl ih =>
      intro rt0 h
      obtain ⟨tm, m⟩ := hd
      simp only [sdkLoop] at h ⊢
      rcases ih _ h with h1 | h1
      · cases m with
        | resultMsg r s =>
            right
            rw [hasTerminal_append]
            simp [sdkStep_result_terminal verbose r s rt0]
        | assistant blocks => left; simpa [sdkStep] using h1
        | streamEvent dt txt => left; simpa [sdkStep] using h1
        | skip => left; simpa [sdkStep] using h1
      · right
        rw [hasTerminal_append]
        simp [h1]

theorem sdkLoop_rt_pres (verbose : Bool) (feed : List (Nat × SDKMsg)) :
    ∀ rt, (∀ p ∈ feed, isResultMsgS p.2 = false) →
      (sdkLoop verbose feed rt).2 = rt := by
  induction feed with
  | nil => intro rt _; simp [sdkLoop]
  | cons hd tl ih =>
      intro rt h
      obtain ⟨tm, m⟩ := hd
      have hm : isResultMsgS m = false := h (tm, m) (by simp)
      simp only [sdkLoop]
      rw [ih _ (fun p hp => h p (by simp [hp]))]
      cases m with
      | resultMsg r s => simp [isResultMsgS] at hm
      | assistant blocks => simp [sdkStep]
      | streamEvent dt txt => simp [sdkStep]
      | skip => simp [sdkStep]

/-! ### Subprocess path lemmas -/

theorem subStep_regOk (verbose : Bool) (m : SubMsg) (rt : Option String) :
    regOkAux none (subStep verbose m rt).1 = true := by
  cases m with
  | blank => simp [subStep, regOkAux]
  | nonJson => simp [subStep, regOkAux]
  | assistant blocks =>
      apply regOkAux_of_plain
      intro a ha
      simp only [subStep, List.mem_filterMap] at ha
      obtain ⟨b, hb, hfb⟩ := ha
      cases b with
      | toolUseB nm inp =>
          have hfb2 : Action.yieldEv (Event.toolUse (format_tool_status nm inp)) = a :=
            Option.some.inj hfb
          subst hfb2
          simp [plainAct]
      | otherB => exact Option.noConfusion hfb
  | toolResult => simp [subStep, regOkAux]
  | streamEvent dt txt =>
      by_cases h : (verbose && dt == "text_delta" && !txt.isEmpty) = true
      · simp [subStep, h, regOkAux]
      · simp [subStep, h, regOkAux]
  | resultMsg r s =>
      cases s with
      | none => simp [subStep, truthyS, regOkAux]
      | some str =>
          by_cases h : str.isEmpty
          · simp [subStep, truthyS, h, regOkAux]
          · simp [subStep, truthyS, h, regOkAux]
  | otherType => simp [subStep, regOkAux]

theorem subStep_no_error (verbose : Bool) (m : SubMsg) (rt : Option String) :
    hasErrorEv (subStep verbose m rt).1 = false := by
  cases m with
  | blank => simp [subStep, hasErrorEv]
  | nonJson => simp [subStep, hasErrorEv]
  | assistant blocks =>
      simp only [hasErrorEv, List.any_eq_false, subStep]
      intro a ha
      simp only [List.mem_filterMap] at ha
      obtain ⟨b, hb, hfb⟩ := ha
      cases b with
      | toolUseB nm inp =>
          have hfb2 : Action.yieldEv (Event.toolUse (format_tool_status nm inp)) = a :=
            Option.some.inj hfb
          subst hfb2
          simp [isErrAct]
      | otherB => exact Option.noConfusion hfb
  | toolResult => simp [subStep, hasErrorEv, isErrAct]
  | streamEvent dt txt =>
      by_cases h : (verbose && dt == "text_delta" && !txt.isEmpty) = true <;>
        simp [subStep, h, hasErrorEv, isErrAct]
  | resultMsg r s =>
      by_cases h : truthyS s = true <;>
        simp [subStep, h, hasErrorEv, isErrAct]
  | otherType => simp [subStep, hasErrorEv]

theorem subStep_result_terminal (verbose : Bool) (r : String) (s : Option String)
    (rt : Option String) :
    hasTerminal (subStep verbose (.resultMsg r s) rt).1 = true := by
  by_cases h : truthyS s = true <;>
    simp [subStep, h, hasTerminal, isTermAct, isTerminal]

theorem timeoutActs_regOk : regOkAux none timeoutActs = true := by
  simp [timeoutActs, regOkAux]

theorem timeoutActs_terminal : hasTerminal timeoutActs = true := by
  simp [timeoutActs, hasTerminal, isTermAct, isTerminal]

theorem subLoop_regOk (verbose : Bool) (deadline : Nat)
    (lines : List (Nat × SubMsg)) :
    ∀ now rt, regOkAux none (subLoop verbose deadline now lines rt).1 = true := by
  induction lines with
  | nil => intro now rt; simp [subLoop, regOkAux]
  | cons hd tl ih =>
      intro now rt
      obtain ⟨arrival, m⟩ := hd
      by_cases h1 : deadline ≤ now
      · simp [subLoop, h1, timeoutActs_regOk]
      · by_cases h2 : deadline < arrival
        · simp [subLoop, h1, h2, timeoutActs_regOk]
        · simp only [subLoop, if_neg h1, if_neg h2]
          exact regOkAux_append _ (ih _ _) _ none (subStep_regOk verbose m rt)

theorem subLoop_timeout_terminal (verbose : Bool) (deadline : Nat)
    (lines : List (Nat × SubMsg)) :
    ∀ now rt, (subLoop verbose deadline now lines rt).2 = none →
      hasTerminal (subLoop verbose deadline now lines rt).1 = true := by
  induction lines with
  | nil => intro now rt h; simp [subLoop] at h
  | cons hd tl ih =>
      intro now rt h
      obtain ⟨arrival, m⟩ := hd
      by_cases h1 : deadline ≤ now
      · simp [subLoop, h1, timeoutActs_terminal]
      · by_cases h2 : deadline < arrival
        · simp [subLoop, h1, h2, timeoutActs_terminal]
        · simp only [subLoop, if_neg h1, if_neg h2] at h ⊢
          rw [hasTerminal_append]
          simp [ih _ _ h]

theorem subLoop_no_error_of_some (verbose : Bool) (deadline : Nat)
    (lines : List (Nat × SubMsg)) :
    ∀ now rt x, (subLoop verbose deadline now lines rt).2 = some x →
      hasErrorEv (subLoop verbose deadline now lines rt).1 = false := by
  induction lines with
  | nil => intro now rt x _; simp [subLoop, hasErrorEv]
  | cons hd tl ih =>
      intro now rt x h
      obtain ⟨arrival, m⟩ := hd
      by_cases h1 : deadline ≤ now
      · simp [subLoop, h1] at h
      · by_cases h2 : deadline < arrival
        · simp [subLoop, h1, h2] at h
        · simp only [subLoop, if_neg h1, if_neg h2] at h ⊢
          rw [hasErrorEv_append]
          simp [subStep_no_error, ih _ _ _ h]

theorem subLoop_terminal (verbose : Bool) (deadline : Nat)
    (lines : List (Nat × SubMsg)) :
    ∀ now rt0 n rt, (subLoop verbose deadline now lines rt0).2 = some (n, rt) →
      rt.isSome = true →
      rt0.isSome = true ∨ hasTerminal (subLoop verbose deadline now lines rt0).1 = true := by
  induction lines with
  | nil =>
      intro now rt0 n rt h hrt
      left
      simp only [subLoop, Option.some.injEq] at h
      have h2 : rt0 = rt := congrArg Prod.snd h
      rw [h2]
      exact hrt
  | cons hd tl ih =>
      intro now rt0 n rt h hrt
      obtain ⟨arrival, m⟩ := hd
      by_cases h1 : deadline ≤ now
      · simp [subLoop, h1] at h
      · by_cases h2 : deadline < arrival
        · simp [subLoop, h1, h2] at h
        · simp only [subLoop, if_neg h1, if_neg h2] at h ⊢
          rcases ih _ _ _ _ h hrt with h3 | h3
          · cases m with
            | resultMsg r s =>
                right
                rw [hasTerminal_append]
                simp [subStep_result_terminal verbose r s rt0]
            | blank => left; simpa [subStep] using h3
            | nonJson => left; simpa [subStep] using h3
            | assistant blocks => left; simpa [subStep] using h3
            | toolResult => left; simpa [subStep] using h3
            | streamEvent dt txt => left; simpa [subStep] using h3
            | otherType => left; simpa [subStep] using h3
          · right
            rw [hasTerminal_append]
            simp [h3]

def hasQuery (l : List Action) : Bool := l.any isQueryAct

/-- Three messages queued for one ConversationKey, starting from the
empty batching state. -/
def queue3 {α : Type} (isPrivate : Bool) (chat_id thread_id user_id : Int)
    (ctx1 ctx2 ctx3 : α) (x y z : String) : BatchState α :=
  queue_message
    (queue_message
      (queue_message (emptyBatch α) isPrivate chat_id thread_id user_id ctx1 x)
      isPrivate chat_id thread_id user_id ctx2 y)
    isPrivate chat_id thread_id user_id ctx3 z

theorem get_session_id_some (d : List (String × SessionEntry))
    (chat_id thread_id user_id : Int) :
    get_session_id (some d) chat_id thread_id user_id =
      ((dget d (session_key chat_id thread_id user_id)).getD ⟨none, none⟩).sid := rfl

/-! ## Claims -/

theorem countCallsFor_append (a b : List LockAction) (c t u : Int) :
    countCallsFor (a ++ b) c t u = countCallsFor a c t u + countCallsFor b c t u := by
  simp [countCallsFor]

theorem countCallsFor_resume_le_one (sess : SessionsFile) (e : StreamEntry)
    (c t u : Int) : countCallsFor (resume_chat_locks sess e) c t u ≤ 1 := by
  by_cases h : truthyS (get_session_id sess e.chat_id e.thread_id e.user_id) = true
  · simp only [resume_chat_locks, if_pos h]
    exact le_trans (List.length_filter_le _ _) (by simp)
  · simp [resume_chat_locks, h, countCallsFor]

theorem countCallsFor_resume_zero (sess : SessionsFile) (e : StreamEntry)
    (c t u : Int) (h : ¬(e.chat_id = c ∧ e.thread_id = t ∧ e.user_id = u)) :
    countCallsFor (resume_chat_locks sess e) c t u = 0 := by
  have hb : (e.chat_id == c && e.thread_id == t && e.user_id == u) = false := by
    by_contra hcon
    rw [Bool.not_eq_false] at hcon
    simp only [Bool.and_eq_true, beq_iff_eq] at hcon
    exact h ⟨hcon.1.1, hcon.1.2, hcon.2⟩
  by_cases hs : truthyS (get_session_id sess e.chat_id e.thread_id e.user_id) = true
  · simp [resume_chat_locks, hs, countCallsFor, List.filter_cons, hb]
  · simp [resume_chat_locks, hs, countCallsFor]

theorem countCallsFor_recovery_zero (sess : SessionsFile)
    (l : List (String × StreamEntry)) (c t u : Int) :
    (∀ p ∈ l, ¬(p.2.chat_id = c ∧ p.2.thread_id = t ∧ p.2.user_id = u)) →
    countCallsFor (recovery_locks sess l) c t u = 0 := by
  induction l with
  | nil => intro _; simp [recovery_locks, countCallsFor]
  | cons hd tl ih =>
      intro h
      have hh := h hd (by simp)
      have htl := ih fun p hp => h p (by simp [hp])
      simp only [recovery_locks, countCallsFor_append, htl,
        countCallsFor_resume_zero sess hd.2 c t u hh]

theorem recovery_calls_at_most_one (sess : SessionsFile)
    (interrupted : List (String × StreamEntry)) (c t u : Int) :
    wfLedgerDict interrupted → keysNodup interrupted →
    countCallsFor (recovery_locks sess interrupted) c t u ≤ 1 := by
  induction interrupted with
  | nil => intro _ _; simp [recovery_locks, countCallsFor]
  | cons hd tl ih =>
      intro hwf hnd
      obtain ⟨k, e⟩ := hd
      have hwf_hd : k = session_key e.chat_id e.thread_id e.user_id :=
        hwf (k, e) (by simp)
      have hnd' : k ∉ dkeys tl ∧ keysNodup tl := by
        simpa [keysNodup, dkeys] using hnd
      have hwf' : wfLedgerDict tl := fun p hp => hwf p (by simp [hp])
      simp only [recovery_locks, countCallsFor_append]
      by_cases hm : e.chat_id = c ∧ e.thread_id = t ∧ e.user_id = u
      · have hzero : countCallsFor (recovery_locks sess tl) c t u = 0 := by
          apply countCallsFor_recovery_zero
          intro p hp hpm
          have hp1 : p.1 = session_key p.2.chat_id p.2.thread_id p.2.user_id :=
            hwf' p hp
          have hpk : p.1 = k := by
            rw [hp1, hpm.1, hpm.2.1, hpm.2.2, hwf_hd, hm.1, hm.2.1, hm.2.2]
          exact hnd'.1 (by
            rw [← hpk]
            simpa [dkeys] using List.mem_map_of_mem Prod.fst hp)
        rw [hzero]
        simpa using countCallsFor_resume_le_one sess e c t u
      · rw [countCallsFor_resume_zero sess e c t u hm]
        simpa using ih hwf' hnd'.2

/-- Claim C1 counterexample: the restart-recovery path issues its agent
call with no mutual-exclusion primitive held — `_resume_chat` calls
`stream_claude` outside any lock. -/
theorem claim_C1_counterexample :
    callsUnderLock []
      (resume_chat_locks (some [("3:0:9", ⟨some "sid-1", none⟩)]) ⟨3, 0, 9⟩) = false := by
  decide

/-- Claim C1 (amended): normal-path generations acquire the per-requester
lock before the `stream_claude` call and release it after, which gives at
most one in-flight generation per ConversationKey on that path; the
restart-recovery path acquires no lock, but the recovery pass issues at
most one agent call per ConversationKey because the ledger is a key-indexed
map, and it runs before message polling starts. -/
theorem claim_C1_amended (isPrivate : Bool) (chat_id thread_id user_id : Int) :
    callsUnderLock []
      (run_with_streaming_locks isPrivate chat_id thread_id user_id) = true ∧
    (∀ (sess : SessionsFile) (interrupted : List (String × StreamEntry)),
      wfLedgerDict interrupted → keysNodup interrupted →
      ∀ c t u : Int,
        countCallsFor (recovery_locks sess interrupted) c t u ≤ 1) := by
  constructor
  · simp [run_with_streaming_locks, callsUnderLock]
  · intro sess interrupted hwf hnd c t u
    exact recovery_calls_at_most_one sess interrupted c t u hwf hnd

theorem claim_C1_amended_witness :
    wfLedgerDict [("3:0:9", ⟨3, 0, 9⟩)] ∧
    keysNodup ([("3:0:9", ⟨3, 0, 9⟩)] : List (String × StreamEntry)) ∧
    callsUnderLock [] (run_with_streaming_locks true 3 0 9) = true ∧
    countCallsFor
      (recovery_locks (some [("3:0:9", ⟨some "sid-1", none⟩)])
        [("3:0:9", ⟨3, 0, 9⟩)]) 3 0 9 ≤ 1 := by
  refine ⟨by decide, by decide, (claim_C1_amended true 3 0 9).1, ?_⟩
  exact (claim_C1_amended true 3 0 9).2 (some [("3:0:9", ⟨some "sid-1", none⟩)])
    [("3:0:9", ⟨3, 0, 9⟩)] (by decide) (by decide) 3 0 9

/-- Filtering a filtered dict by key, given the key filter is a
singleton. -/
theorem filter_key_of_filtered {α : Type} (d : List (String × α)) (k : String)
    (e : α) (pred : String × α → Bool)
    (h : d.filter (fun p => p.1 == k) = [(k, e)]) :
    (d.filter pred).filter (fun p => p.1 == k) =
      if pred (k, e) then [(k, e)] else [] := by
  have h2 : (d.filter pred).filter (fun p => p.1 == k) =
      (d.filter (fun p => p.1 == k)).filter pred := by
    rw [List.filter_filter, List.filter_filter]
    apply List.filter_congr
    intro a _
    exact Bool.and_comm _ _
  rw [h2, h]
  by_cases hp : pred (k, e) = true
  · simp [List.filter_cons, hp]
  · simp [List.filter_cons, hp]

/-- Claim C6: restart recovery: a ledger key with a Session Registry
record — a truthy session id, the exact guard `if not session_id:` the
code applies — gets exactly one resumption call (and each call completes
with an outcome independently of the other keys failing); a key whose
session id is falsy (missing or empty) is skipped without error; both
state files are removed before any generation runs. -/
theorem claim_C6_restart_recovery (rs asf : LedgerFile) (sess : SessionsFile)
    (k : String) (e : StreamEntry)
    (hget : dget (collect_interrupted rs asf) k = some e) :
    (truthyS (get_session_id sess e.chat_id e.thread_id e.user_id) = true →
      (resume_calls sess (collect_interrupted rs asf)).filter
          (fun p => p.1 == k) = [(k, e)] ∧
      ∀ fails : String → Bool,
        (recovery_outcomes sess rs asf fails).filter (fun p => p.1 == k) =
          [(k, !fails k)]) ∧
    (truthyS (get_session_id sess e.chat_id e.thread_id e.user_id) = false →
      (resume_calls sess (collect_interrupted rs asf)).filter
        (fun p => p.1 == k) = []) ∧
    (post_init_recovery rs asf sess).2.1 = none ∧
    (post_init_recovery rs asf sess).2.2 = none := by
  have hnd : keysNodup (collect_interrupted rs asf) := by
    apply keysNodup_dictUpdate
    apply keysNodup_dictUpdate
    simp [keysNodup, dkeys]
  have hfk := filter_eq_of_dget (collect_interrupted rs asf) k e hnd hget
  have h1 := filter_key_of_filtered (collect_interrupted rs asf) k e
    (fun p => truthyS (get_session_id sess p.2.chat_id p.2.thread_id p.2.user_id)) hfk
  refine ⟨?_, ?_, rfl, rfl⟩
  · intro hs
    have hfilter : (resume_calls sess (collect_interrupted rs asf)).filter
        (fun p => p.1 == k) = [(k, e)] := by
      rw [resume_calls, h1, if_pos]
      exact hs
    refine ⟨hfilter, ?_⟩
    intro fails
    rw [recovery_outcomes, List.filter_map]
    have hcomp : ((fun p => p.1 == k) ∘
        (fun p : String × StreamEntry => (p.1, !fails p.1))) =
        (fun p : String × StreamEntry => p.1 == k) := rfl
    rw [hcomp, hfilter]
    rfl
  · intro hnone
    rw [resume_calls, h1, if_neg]
    simp [hnone]

theorem claim_C6_restart_recovery_witness :
    dget (collect_interrupted none (some [("1:0:5", ⟨1, 0, 5⟩)])) "1:0:5" =
      some ⟨1, 0, 5⟩ ∧
    (resume_calls (some [("1:0:5", ⟨some "s", none⟩)])
        (collect_interrupted none (some [("1:0:5", ⟨1, 0, 5⟩)]))).filter
      (fun p => p.1 == "1:0:5") = [("1:0:5", ⟨1, 0, 5⟩)] := by
  refine ⟨by decide, ?_⟩
  exact ((claim_C6_restart_recovery none (some [("1:0:5", ⟨1, 0, 5⟩)])
    (some [("1:0:5", ⟨some "s", none⟩)]) "1:0:5" ⟨1, 0, 5⟩ (by decide)).1 (by decide)).1

theorem sdkLoop_retime (verbose : Bool) (g : Nat → Nat)
    (feed : List (Nat × SDKMsg)) :
    ∀ rt, sdkLoop verbose (feed.map fun p => (g p.1, p.2)) rt =
      sdkLoop verbose feed rt := by
  induction feed with
  | nil => intro rt; rfl
  | cons hd tl ih =>
      intro rt
      obtain ⟨tm, m⟩ := hd
      simp only [List.map_cons, sdkLoop, ih]

/-- Claim C5 counterexample: on the SDK path, a feed whose only data
arrives after the configured deadline still produces a normal result —
no error event is emitted and nothing is force-terminated — because
`_stream_claude_sdk` enforces no deadline at all. -/
theorem claim_C5_counterexample :
    (∀ p ∈ ([(CLAUDE_TIMEOUT + 1, SDKMsg.resultMsg (some "ok") (some "s1"))] :
        List (Nat × SDKMsg)), CLAUDE_TIMEOUT < p.1) ∧
    eventsOf (sdkStream 10 0 5 false
      ⟨none, none, [(CLAUDE_TIMEOUT + 1, .resultMsg (some "ok") (some "s1"))],
        none, none⟩) = [.result "ok" (some "s1")] ∧
    hasErrorEv (sdkStream 10 0 5 false
      ⟨none, none, [(CLAUDE_TIMEOUT + 1, .resultMsg (some "ok") (some "s1"))],
        none, none⟩) = false ∧
    hasKill (sdkStream 10 0 5 false
      ⟨none, none, [(CLAUDE_TIMEOUT + 1, .resultMsg (some "ok") (some "s1"))],
        none, none⟩) = false := by
  decide

/-- Claim C5 (amended): only the subprocess path maps a timeout to a
terminal error: a run with no data inside the deadline produces exactly
the timeout trace, the kill preceding the single error event; the SDK
path enforces no deadline — its trace is invariant under arbitrary
retiming of the feed. -/
theorem claim_C5_amended (chat_id thread_id user_id : Int) (verbose : Bool)
    (env : SubEnv) (hpre : env.preExc = none) (hsp : env.spawnFail = false)
    (hlines : ∀ p ∈ env.lines, CLAUDE_TIMEOUT < p.1)
    (heof : ∀ te, env.eofAt = some te → CLAUDE_TIMEOUT < te) :
    subStream chat_id thread_id user_id verbose env =
      [.ledgerAdd chat_id thread_id user_id, .spawn, .kill,
       .yieldEv (.error "Claude took too long to respond. Try again or /new to start fresh."),
       .ledgerRemove chat_id thread_id user_id] ∧
    (∀ (envS : SDKEnv) (g : Nat → Nat) (c t u : Int) (v : Bool),
      sdkStream c t u v
        ⟨envS.connect1, envS.connect2, envS.feed.map (fun p => (g p.1, p.2)),
          envS.exc, envS.preExc⟩ =
      sdkStream c t u v envS) := by
  constructor
  · have hrun : subRun verbose env = timeoutActs := by
      cases hl : env.lines with
      | nil =>
          have heof2 : subEof CLAUDE_TIMEOUT env 0 none = timeoutActs := by
            unfold subEof
            rw [if_neg (by decide)]
            cases he : env.eofAt with
            | none => rfl
            | some te => simp [heof te he]
          simp [subRun, hl, subLoop, heof2]
      | cons hd tl =>
          obtain ⟨arrival, m⟩ := hd
          have ha : (300 : Nat) < arrival := hlines (arrival, m) (by simp [hl])
          simp [subRun, hl, subLoop, ha, CLAUDE_TIMEOUT]
    simp [subStream, hpre, hsp, hrun, timeoutActs]
  · intro envS g c t u v
    obtain ⟨c1, c2, feed, exc, pre⟩ := envS
    simp only [sdkStream, sdkBody, sdkLoop_retime]

theorem claim_C5_amended_witness :
    (⟨[], none, 0, "", false, none⟩ : SubEnv).preExc = none ∧
    subStream 2 0 7 false ⟨[], none, 0, "", false, none⟩ =
      [.ledgerAdd 2 0 7, .spawn, .kill,
       .yieldEv (.error "Claude took too long to respond. Try again or /new to start fresh."),
       .ledgerRemove 2 0 7] := by
  refine ⟨rfl, ?_⟩
  exact (claim_C5_amended 2 0 7 false ⟨[], none, 0, "", false, none⟩ rfl rfl
    (by simp) (by simp)).1

theorem hasErrorEv_cons (x : Action) (l : List Action) :
    hasErrorEv (x :: l) = (isErrAct x || hasErrorEv l) := by
  simp [hasErrorEv]

/-- Claim C4 counterexample: a generation ended by the deliberate restart
signal yields the silent event, but its ledger entry is not left intact:
the guaranteed-cleanup removal still runs, deleting the entry (and the
then-empty backing file). -/
theorem claim_C4_counterexample :
    eventsOf (sdkStream 7 0 42 false
      ⟨none, none, [], some "Command failed with exit code -15", none⟩) =
      [.silent] ∧
    applyLedger (some [(session_key 7 0 42, ⟨7, 0, 42⟩)])
      (sdkStream 7 0 42 false
        ⟨none, none, [], some "Command failed with exit code -15", none⟩) =
      none := by
  decide

/-- Claim C4 (amended): a generation terminated by the deliberate restart
signal yields the silent event and no user-visible error on both paths;
however cleanup is not skipped — the finally-step removal of the ledger
entry is the last action of the trace even on the silent path, so the
entry survives a restart only when the process dies before that cleanup
runs (or through the separately written restart snapshot). -/
theorem claim_C4_amended (chat_id thread_id user_id : Int) (verbose : Bool)
    (env : SDKEnv) (e : String) (hpre : env.preExc = none)
    (hc1 : env.connect1 = none) (hexc : env.exc = some e)
    (hsig : isSigtermErr e = true)
    (envP : SubEnv) (acts : List Action) (n te : Nat)
    (hpreP : envP.preExc = none) (hspP : envP.spawnFail = false)
    (hloop : subLoop verbose CLAUDE_TIMEOUT 0 envP.lines none =
      (acts, some (n, none)))
    (hn : n < CLAUDE_TIMEOUT) (heofP : envP.eofAt = some te)
    (hte : ¬CLAUDE_TIMEOUT < te) (hrc : envP.returncode < 0) :
    eventsOf (sdkStream chat_id thread_id user_id verbose env) =
      eventsOf (sdkLoop verbose env.feed none).1 ++ [.silent] ∧
    hasErrorEv (sdkStream chat_id thread_id user_id verbose env) = false ∧
    (sdkStream chat_id thread_id user_id verbose env).getLast? =
      some (.ledgerRemove chat_id thread_id user_id) ∧
    eventsOf (subStream chat_id thread_id user_id verbose envP) =
      eventsOf acts ++ [.silent] ∧
    hasErrorEv (subStream chat_id thread_id user_id verbose envP) = false ∧
    (subStream chat_id thread_id user_id verbose envP).getLast? =
      some (.ledgerRemove chat_id thread_id user_id) := by
  have hsdk : sdkStream chat_id thread_id user_id verbose env =
      Action.ledgerAdd chat_id thread_id user_id ::
        ((Action.connectAttempt ::
          (Action.query :: (sdkLoop verbose env.feed none).1 ++
            [Action.disconnect, Action.yieldEv Event.silent])) ++
          [Action.ledgerRemove chat_id thread_id user_id]) := by
    simp [sdkStream, hpre, hc1, sdkBody, hexc, hsig]
  have heof2 : subEof CLAUDE_TIMEOUT envP n none = [Action.yieldEv Event.silent] := by
    simp [subEof, Nat.not_le.mpr hn, heofP, hte, subExitActs, hrc, ne_of_lt hrc]
  have hsub : subStream chat_id thread_id user_id verbose envP =
      Action.ledgerAdd chat_id thread_id user_id ::
        ((Action.spawn :: (acts ++ [Action.yieldEv Event.silent])) ++
          [Action.ledgerRemove chat_id thread_id user_id]) := by
    simp [subStream, hpreP, hspP, subRun, hloop, heof2]
  have herr : hasErrorEv acts = false := by
    have h1 := subLoop_no_error_of_some verbose CLAUDE_TIMEOUT envP.lines 0 none
      (n, none) (by rw [hloop])
    rw [hloop] at h1
    exact h1
  refine ⟨?_, ?_, ?_, ?_, ?_, ?_⟩
  · rw [hsdk]
    simp [eventsOf]
  · rw [hsdk]
    simp only [hasErrorEv_cons, hasErrorEv_append,
      sdkLoop_no_error verbose env.feed none]
    simp [isErrAct, hasErrorEv]
  · rw [hsdk, ← List.cons_append, List.getLast?_concat]
  · rw [hsub]
    simp [eventsOf]
  · rw [hsub]
    simp only [hasErrorEv_cons, hasErrorEv_append, herr]
    simp [isErrAct, hasErrorEv]
  · rw [hsub, ← List.cons_append, List.getLast?_concat]

theorem claim_C4_amended_witness :
    isSigtermErr "Command failed with exit code: -15" = true ∧
    eventsOf (sdkStream 1 0 5 false
      ⟨none, none, [], some "Command failed with exit code: -15", none⟩) =
      eventsOf (sdkLoop false [] none).1 ++ [.silent] ∧
    eventsOf (subStream 1 0 5 false ⟨[], some 0, -15, "", false, none⟩) =
      eventsOf ([] : List Action) ++ [.silent] := by
  refine ⟨by decide, ?_, ?_⟩
  · exact (claim_C4_amended 1 0 5 false
      ⟨none, none, [], some "Command failed with exit code: -15", none⟩
      "Command failed with exit code: -15" rfl rfl rfl (by decide)
      ⟨[], some 0, -15, "", false, none⟩ [] 0 0 rfl rfl rfl (by decide) rfl
      (by decide) (by decide)).1
  · exact (claim_C4_amended 1 0 5 false
      ⟨none, none, [], some "Command failed with exit code: -15", none⟩
      "Command failed with exit code: -15" rfl rfl rfl (by decide)
      ⟨[], some 0, -15, "", false, none⟩ [] 0 0 rfl rfl rfl (by decide) rfl
      (by decide) (by decide)).2.2.2.1

theorem regOkAux_cons_plain (x : Action) (l : List Action)
    (hx : plainAct x = true) :
    regOkAux none (x :: l) = regOkAux none l := by
  cases x with
  | setSession sid => simp [plainAct] at hx
  | yieldEv e =>
      cases e with
      | result t s => simp [plainAct] at hx
      | toolUse s => simp [regOkAux]
      | toolResult => simp [regOkAux]
      | partialText s => simp [regOkAux]
      | error s => simp [regOkAux]
      | silent => simp [regOkAux]
  | ledgerAdd c t u => simp [regOkAux]
  | ledgerRemove c t u => simp [regOkAux]
  | connectAttempt => simp [regOkAux]
  | disconnect => simp [regOkAux]
  | newHandle => simp [regOkAux]
  | query => simp [regOkAux]
  | spawn => simp [regOkAux]
  | kill => simp [regOkAux]

theorem subExitActs_regOk (rc : Int) (st : String) (rt : Option String) :
    regOkAux none (subExitActs rc st rt) = true := by
  unfold subExitActs
  by_cases h1 : rc ≠ 0
  · by_cases h2 : rc < 0
    · by_cases h3 : rt.isNone <;> simp [h1, h2, h3, regOkAux]
    · by_cases h3 : rt.isNone <;> simp [h1, h2, h3, regOkAux]
  · by_cases h3 : rt.isNone <;> simp [h1, h3, regOkAux]

theorem subEof_regOk (d : Nat) (env : SubEnv) (now : Nat) (rt : Option String) :
    regOkAux none (subEof d env now rt) = true := by
  unfold subEof
  by_cases h1 : d ≤ now
  · simp [h1, timeoutActs_regOk]
  · cases henv : env.eofAt with
    | none => simp [h1, timeoutActs_regOk]
    | some te =>
        by_cases h2 : d < te <;>
          simp [h1, h2, subExitActs_regOk, timeoutActs_regOk]

theorem sdkBody_regOk (verbose : Bool) (feed : List (Nat × SDKMsg))
    (exc : Option String) : regOkAux none (sdkBody verbose feed exc) = true := by
  have hloop := sdkLoop_regOk verbose feed none
  have hhead : regOkAux none (Action.query :: (sdkLoop verbose feed none).1) = true := by
    rw [regOkAux_cons_plain _ _ (by simp [plainAct])]
    exact hloop
  cases exc with
  | none =>
      simp only [sdkBody]
      refine regOkAux_append _ ?_ _ none hhead
      by_cases h : (sdkLoop verbose feed none).2.isNone = true <;>
        simp [h, regOkAux]
  | some e =>
      simp only [sdkBody]
      refine regOkAux_append _ ?_ _ none hhead
      by_cases hs : isSigtermErr e = true
      · simp [hs, regOkAux]
      · by_cases h : (sdkLoop verbose feed none).2.isNone = true <;>
          simp [hs, h, regOkAux]

theorem subRun_regOk (verbose : Bool) (env : SubEnv) :
    regOkAux none (subRun verbose env) = true := by
  have h1 := subLoop_regOk verbose CLAUDE_TIMEOUT env.lines 0 none
  cases hlp : (subLoop verbose CLAUDE_TIMEOUT 0 env.lines none).2 with
  | none =>
      simp only [subRun, hlp]
      refine regOkAux_append _ ?_ _ none h1
      simp [regOkAux]
  | some p =>
      obtain ⟨now, rt⟩ := p
      simp only [subRun, hlp]
      exact regOkAux_append _ (subEof_regOk CLAUDE_TIMEOUT env now rt) _ none h1

/-- Claim C7: within one generation the Session Registry is written only
when a final result carrying a session id is received — the write
immediately precedes the yield of that result event — and error, timeout
and silent outcomes leave the registry unchanged (no `setSession` occurs
anywhere else in any trace of either path). -/
theorem claim_C7_registry_discipline (chat_id thread_id user_id : Int)
    (verbose : Bool) (envS : SDKEnv) (envP : SubEnv) :
    regOk (sdkStream chat_id thread_id user_id verbose envS) = true ∧
    regOk (subStream chat_id thread_id user_id verbose envP) = true := by
  constructor
  · rw [regOk, sdkStream, regOkAux_cons_plain _ _ (by simp [plainAct])]
    apply regOkAux_append _ (by simp [regOkAux]) _ none
    cases hpre : envS.preExc with
    | some e => simp [regOkAux]
    | none =>
        rw [regOkAux_cons_plain _ _ (by simp [plainAct])]
        cases hc1 : envS.connect1 with
        | none => exact sdkBody_regOk verbose envS.feed envS.exc
        | some e1 =>
            rw [regOkAux_cons_plain _ _ (by simp [plainAct]),
              regOkAux_cons_plain _ _ (by simp [plainAct]),
              regOkAux_cons_plain _ _ (by simp [plainAct])]
            cases hc2 : envS.connect2 with
            | none => exact sdkBody_regOk verbose envS.feed envS.exc
            | some e2 => simp [regOkAux]
  · rw [regOk, subStream, regOkAux_cons_plain _ _ (by simp [plainAct])]
    apply regOkAux_append _ (by simp [regOkAux]) _ none
    cases hpre : envP.preExc with
    | some e => simp [regOkAux]
    | none =>
        cases hsp : envP.spawnFail with
        | true => simp [regOkAux]
        | false =>
            rw [if_neg (by simp), regOkAux_cons_plain _ _ (by simp [plainAct])]
            exact subRun_regOk verbose envP

theorem hasTerminal_cons (x : Action) (l : List Action) :
    hasTerminal (x :: l) = (isTermAct x || hasTerminal l) := by
  simp [hasTerminal]

theorem hasTerminal_cons_tail (x : Action) (l : List Action)
    (h : hasTerminal l = true) : hasTerminal (x :: l) = true := by
  rw [hasTerminal_cons, h, Bool.or_true]

theorem hasTerminal_append_left (a b : List Action)
    (h : hasTerminal a = true) : hasTerminal (a ++ b) = true := by
  rw [hasTerminal_append, h, Bool.true_or]

theorem hasTerminal_append_right (a b : List Action)
    (h : hasTerminal b = true) : hasTerminal (a ++ b) = true := by
  rw [hasTerminal_append, h, Bool.or_true]

theorem sdkBody_terminal (verbose : Bool) (feed : List (Nat × SDKMsg))
    (exc : Option String) : hasTerminal (sdkBody verbose feed exc) = true := by
  cases exc with
  | none =>
      by_cases h : (sdkLoop verbose feed none).2.isNone = true
      · have hbody : sdkBody verbose feed none =
            (Action.query :: (sdkLoop verbose feed none).1) ++
              [Action.yieldEv (Event.error "Claude returned no result.")] := by
          simp [sdkBody, h]
        rw [hbody]
        exact hasTerminal_append_right _ _ (by simp [hasTerminal, isTermAct, isTerminal])
      · have hsome : (sdkLoop verbose feed none).2.isSome = true := by
          cases hx : (sdkLoop verbose feed none).2
          · simp [hx] at h
          · simp
        rcases sdkLoop_terminal verbose feed none hsome with h1 | h1
        · simp at h1
        · have hbody : sdkBody verbose feed none =
              Action.query :: (sdkLoop verbose feed none).1 := by
            simp [sdkBody, h]
          rw [hbody]
          exact hasTerminal_cons_tail _ _ h1
  | some e =>
      by_cases hs : isSigtermErr e = true
      · have hbody : sdkBody verbose feed (some e) =
            (Action.query :: (sdkLoop verbose feed none).1) ++
              [Action.disconnect, Action.yieldEv Event.silent] := by
          simp [sdkBody, hs]
        rw [hbody]
        exact hasTerminal_append_right _ _ (by simp [hasTerminal, isTermAct, isTerminal])
      · by_cases h : (sdkLoop verbose feed none).2.isNone = true
        · have hbody : sdkBody verbose feed (some e) =
              (Action.query :: (sdkLoop verbose feed none).1) ++
                [Action.disconnect, Action.yieldEv (Event.error ("Claude error: " ++ e))] := by
            simp [sdkBody, hs, h]
          rw [hbody]
          exact hasTerminal_append_right _ _ (by simp [hasTerminal, isTermAct, isTerminal])
        · have hsome : (sdkLoop verbose feed none).2.isSome = true := by
            cases hx : (sdkLoop verbose feed none).2
            · simp [hx] at h
            · simp
          rcases sdkLoop_terminal verbose feed none hsome with h1 | h1
          · simp at h1
          · have hbody : sdkBody verbose feed (some e) =
                (Action.query :: (sdkLoop verbose feed none).1) ++
                  [Action.disconnect] := by
              simp [sdkBody, hs, h]
            rw [hbody]
            exact hasTerminal_append_left _ _ (hasTerminal_cons_tail _ _ h1)

theorem sdkStream_terminal (chat_id thread_id user_id : Int) (verbose : Bool)
    (env : SDKEnv) :
    hasTerminal (sdkStream chat_id thread_id user_id verbose env) = true := by
  cases hpre : env.preExc with
  | some e => simp [sdkStream, hpre, hasTerminal, isTermAct, isTerminal]
  | none =>
      simp only [sdkStream, hpre]
      apply hasTerminal_cons_tail
      apply hasTerminal_append_left
      apply hasTerminal_cons_tail
      cases hc1 : env.connect1 with
      | none => exact sdkBody_terminal verbose env.feed env.exc
      | some e1 =>
          apply hasTerminal_cons_tail
          apply hasTerminal_cons_tail
          apply hasTerminal_cons_tail
          cases hc2 : env.connect2 with
          | none => exact sdkBody_terminal verbose env.feed env.exc
          | some e2 => simp [hasTerminal, isTermAct, isTerminal]

theorem subExitActs_terminal_none (rc : Int) (st : String) :
    hasTerminal (subExitActs rc st none) = true := by
  unfold subExitActs
  by_cases h1 : rc ≠ 0
  · by_cases h2 : rc < 0 <;> simp [h1, h2, hasTerminal, isTermAct, isTerminal]
  · simp [h1, hasTerminal, isTermAct, isTerminal]

theorem subEof_terminal_none (d : Nat) (env : SubEnv) (now : Nat) :
    hasTerminal (subEof d env now none) = true := by
  unfold subEof
  by_cases h1 : d ≤ now
  · simp [h1, timeoutActs_terminal]
  · cases he : env.eofAt with
    | none => simp [h1, timeoutActs_terminal]
    | some te =>
        by_cases h2 : d < te <;>
          simp [h1, h2, timeoutActs_terminal, subExitActs_terminal_none]

theorem subRun_terminal (verbose : Bool) (env : SubEnv) :
    hasTerminal (subRun verbose env) = true := by
  cases hlp : (subLoop verbose CLAUDE_TIMEOUT 0 env.lines none).2 with
  | none =>
      have h1 := subLoop_timeout_terminal verbose CLAUDE_TIMEOUT env.lines 0 none hlp
      simp only [subRun, hlp]
      exact hasTerminal_append_left _ _ h1
  | some p =>
      obtain ⟨now, rt⟩ := p
      cases hrt : rt with
      | none =>
          subst hrt
          simp only [subRun, hlp]
          exact hasTerminal_append_right _ _ (subEof_terminal_none CLAUDE_TIMEOUT env now)
      | some rres =>
          rcases subLoop_terminal verbose CLAUDE_TIMEOUT env.lines 0 none now rt hlp
              (by simp [hrt]) with h1 | h1
          · simp at h1
          · simp only [subRun, hlp]
            exact hasTerminal_append_left _ _ h1

theorem subStream_terminal (chat_id thread_id user_id : Int) (verbose : Bool)
    (env : SubEnv) :
    hasTerminal (subStream chat_id thread_id user_id verbose env) = true := by
  cases hpre : env.preExc with
  | some e => simp [subStream, hpre, hasTerminal, isTermAct, isTerminal]
  | none =>
      simp only [subStream, hpre]
      apply hasTerminal_cons_tail
      apply hasTerminal_append_left
      cases hsp : env.spawnFail with
      | true =>
          rw [if_pos rfl]
          simp [hasTerminal, isTermAct, isTerminal]
      | false =>
          rw [if_neg (by simp)]
          apply hasTerminal_cons_tail
          exact subRun_terminal verbose env

/-- Claim C10: every run of either streaming path yields at least one
terminal event (result, error or silent) before the generator completes;
in particular a feed that ends with no result message still yields the
explicit error event "Claude returned no result." on both paths. -/
theorem claim_C10_terminal_event (hasSDK : Bool) (chat_id thread_id user_id : Int)
    (verbose : Bool) (envS : SDKEnv) (envP : SubEnv) :
    hasTerminal (stream_claude_trace hasSDK chat_id thread_id user_id verbose
      envS envP) = true ∧
    (envS.preExc = none → envS.connect1 = none → envS.exc = none →
      (∀ p ∈ envS.feed, isResultMsgS p.2 = false) →
      Event.error "Claude returned no result." ∈
        eventsOf (sdkStream chat_id thread_id user_id verbose envS)) ∧
    (envP.preExc = none → envP.spawnFail = false →
      ∀ acts n, subLoop verbose CLAUDE_TIMEOUT 0 envP.lines none =
          (acts, some (n, none)) →
        ¬CLAUDE_TIMEOUT ≤ n →
        ∀ te, envP.eofAt = some te → ¬CLAUDE_TIMEOUT < te →
        envP.returncode = 0 →
        Event.error "Claude returned no result." ∈
          eventsOf (subStream chat_id thread_id user_id verbose envP)) := by
  refine ⟨?_, ?_, ?_⟩
  · cases hasSDK with
    | true =>
        simpa [stream_claude_trace] using
          sdkStream_terminal chat_id thread_id user_id verbose envS
    | false =>
        simpa [stream_claude_trace] using
          subStream_terminal chat_id thread_id user_id verbose envP
  · intro hpre hc1 hexc hnores
    have hrt : (sdkLoop verbose envS.feed none).2 = none :=
      sdkLoop_rt_pres verbose envS.feed none hnores
    have htrace : sdkStream chat_id thread_id user_id verbose envS =
        (Action.ledgerAdd chat_id thread_id user_id :: Action.connectAttempt ::
          Action.query :: (sdkLoop verbose envS.feed none).1) ++
        [Action.yieldEv (Event.error "Claude returned no result."),
         Action.ledgerRemove chat_id thread_id user_id] := by
      simp [sdkStream, hpre, hc1, hexc, sdkBody, hrt]
    rw [htrace, eventsOf_append]
    apply List.mem_append_right
    simp [eventsOf]
  · intro hpreP hspP acts n hloop hn te heofP hte hrc
    have heof2 : subEof CLAUDE_TIMEOUT envP n none =
        [Action.yieldEv (Event.error "Claude returned no result.")] := by
      simp [subEof, hn, heofP, hte, subExitActs, hrc]
    have htrace : subStream chat_id thread_id user_id verbose envP =
        (Action.ledgerAdd chat_id thread_id user_id :: Action.spawn :: acts) ++
        [Action.yieldEv (Event.error "Claude returned no result."),
         Action.ledgerRemove chat_id thread_id user_id] := by
      simp [subStream, hpreP, hspP, subRun, hloop, heof2]
    rw [htrace, eventsOf_append]
    apply List.mem_append_right
    simp [eventsOf]

theorem claim_C10_terminal_event_witness :
    Event.error "Claude returned no result." ∈
      eventsOf (sdkStream 1 0 5 false ⟨none, none, [], none, none⟩) ∧
    Event.error "Claude returned no result." ∈
      eventsOf (subStream 1 0 5 false ⟨[], some 0, 0, "", false, none⟩) := by
  constructor
  · exact (claim_C10_terminal_event true 1 0 5 false ⟨none, none, [], none, none⟩
      ⟨[], some 0, 0, "", false, none⟩).2.1 rfl rfl rfl (by simp)
  · exact (claim_C10_terminal_event false 1 0 5 false ⟨none, none, [], none, none⟩
      ⟨[], some 0, 0, "", false, none⟩).2.2 rfl rfl [] 0 rfl (by decide) 0 rfl
      (by decide) rfl

/-- Claim C9: Session Registry round-trip: after `set(key, sid)`,
`get(key)` returns `sid`; after `clear(key)`, `get(key)` is absent. -/
theorem claim_C9_registry_roundtrip (f : SessionsFile)
    (chat_id thread_id user_id : Int) (sid now : String) :
    get_session_id (set_session_id f chat_id thread_id user_id sid now)
      chat_id thread_id user_id = some sid ∧
    (keysNodup (load_sessions f) →
      get_session_id (clear_session f chat_id thread_id user_id)
        chat_id thread_id user_id = none) := by
  constructor
  · simp [get_session_id, set_session_id, load_sessions, dget_dinsert_self]
  · intro hnd
    by_cases h : (dget (load_sessions f) (session_key chat_id thread_id user_id)).isSome = true
    · have hred : clear_session f chat_id thread_id user_id =
          some (dpop (load_sessions f) (session_key chat_id thread_id user_id)) := by
        simp [clear_session, h]
      rw [hred, get_session_id_some,
        dget_dpop_self (load_sessions f) (session_key chat_id thread_id user_id) hnd]
      rfl
    · have h2 : dget (load_sessions f) (session_key chat_id thread_id user_id) = none := by
        cases hx : dget (load_sessions f) (session_key chat_id thread_id user_id)
        · rfl
        · simp [hx] at h
      simp [clear_session, get_session_id, h, h2]

theorem claim_C9_registry_roundtrip_witness :
    keysNodup (load_sessions (some [("1:0:5", ⟨some "abc", none⟩)])) ∧
    get_session_id
      (set_session_id (some [("1:0:5", ⟨some "abc", none⟩)]) 1 0 5 "xyz" "t1")
      1 0 5 = some "xyz" ∧
    get_session_id (clear_session (some [("1:0:5", ⟨some "abc", none⟩)]) 1 0 5)
      1 0 5 = none := by
  refine ⟨by decide, ?_, ?_⟩
  · exact (claim_C9_registry_roundtrip (some [("1:0:5", ⟨some "abc", none⟩)])
      1 0 5 "xyz" "t1").1
  · exact (claim_C9_registry_roundtrip (some [("1:0:5", ⟨some "abc", none⟩)])
      1 0 5 "xyz" "t1").2 (by decide)

/-- Claim C2: the Generation Ledger entry is written synchronously before
any network call (it is the first action of both streaming paths), is
removed after the call ends (last action of every trace), and a removal
that empties the table deletes the backing file entirely. -/
theorem claim_C2_ledger_bracketing (chat_id thread_id user_id : Int)
    (verbose : Bool) (envS : SDKEnv) (envP : SubEnv) :
    (sdkStream chat_id thread_id user_id verbose envS).head? =
      some (.ledgerAdd chat_id thread_id user_id) ∧
    (sdkStream chat_id thread_id user_id verbose envS).getLast? =
      some (.ledgerRemove chat_id thread_id user_id) ∧
    (subStream chat_id thread_id user_id verbose envP).head? =
      some (.ledgerAdd chat_id thread_id user_id) ∧
    (subStream chat_id thread_id user_id verbose envP).getLast? =
      some (.ledgerRemove chat_id thread_id user_id) ∧
    (∀ f : LedgerFile,
      (dpop (load_active_streams f) (session_key chat_id thread_id user_id)).isEmpty = true →
      remove_active_stream f chat_id thread_id user_id = none) := by
  refine ⟨rfl, ?_, rfl, ?_, ?_⟩
  · simp only [sdkStream]
    rw [← List.cons_append, List.getLast?_concat]
  · simp only [subStream]
    rw [← List.cons_append, List.getLast?_concat]
  · intro f h
    simp [remove_active_stream, h]

theorem claim_C2_ledger_bracketing_witness :
    (dpop (load_active_streams (some [("1:0:5", ⟨1, 0, 5⟩)]))
      (session_key 1 0 5)).isEmpty = true ∧
    remove_active_stream (some [("1:0:5", ⟨1, 0, 5⟩)]) 1 0 5 = none := by
  refine ⟨by decide, ?_⟩
  exact (claim_C2_ledger_bracketing 1 0 5 false ⟨none, none, [], none, none⟩
    ⟨[], none, 0, "", false, none⟩).2.2.2.2 (some [("1:0:5", ⟨1, 0, 5⟩)]) (by decide)

/-- Claim C3: batching: three messages queued for one key within the
window yield, on flush, exactly one generation call whose prompt is the
texts joined in arrival order with blank-line separators, using only the
latest context; a second flush, or a flush with a missing buffer or
missing context, is a no-op; only one timer is armed after the burst. -/
theorem claim_C3_batching {α : Type} (x y z : String) (isPrivate : Bool)
    (chat_id thread_id user_id : Int) (ctx1 ctx2 ctx3 : α) :
    (flush_batch (queue3 isPrivate chat_id thread_id user_id ctx1 ctx2 ctx3 x y z)
        (session_key chat_id thread_id (session_user_id isPrivate user_id))).1 =
      some ⟨x ++ "\n\n" ++ y ++ "\n\n" ++ z, ctx3, chat_id, thread_id, user_id⟩ ∧
    (flush_batch
        (flush_batch (queue3 isPrivate chat_id thread_id user_id ctx1 ctx2 ctx3 x y z)
          (session_key chat_id thread_id (session_user_id isPrivate user_id))).2
        (session_key chat_id thread_id (session_user_id isPrivate user_id))).1 = none ∧
    (flush_batch (emptyBatch α)
        (session_key chat_id thread_id (session_user_id isPrivate user_id))).1 = none ∧
    (flush_batch
        (⟨[(session_key chat_id thread_id (session_user_id isPrivate user_id), [x])],
          [], [], [], 0⟩ : BatchState α)
        (session_key chat_id thread_id (session_user_id isPrivate user_id))).1 = none ∧
    ((queue3 isPrivate chat_id thread_id user_id ctx1 ctx2 ctx3 x y z).timers.filter
      (fun p => p.1 == session_key chat_id thread_id (session_user_id isPrivate user_id))).length = 1 := by
  refine ⟨?_, ?_, ?_, ?_, ?_⟩
  · simp [queue3, queue_message, flush_batch, emptyBatch, dinsert, dget, dpop,
      joinSep, String.append_assoc]
  · simp [queue3, queue_message, flush_batch, emptyBatch, dinsert, dget, dpop]
  · simp [flush_batch, emptyBatch, dget]
  · simp [flush_batch, dget, dpop]
  · simp [queue3, queue_message, emptyBatch, dinsert, List.filter_cons]

/-- Claim C8: on connect failure the handle is torn down and exactly one
retry with a freshly constructed handle is attempted; a second failure
surfaces a connection error immediately and no generation is started. -/
theorem claim_C8_connect_retry (chat_id thread_id user_id : Int) (verbose : Bool)
    (env : SDKEnv) (e1 : String) (hpre : env.preExc = none)
    (h1 : env.connect1 = some e1) :
    (∀ e2, env.connect2 = some e2 →
      sdkStream chat_id thread_id user_id verbose env =
        [.ledgerAdd chat_id thread_id user_id, .connectAttempt, .disconnect,
         .newHandle, .connectAttempt,
         .yieldEv (.error ("Failed to connect to Claude: " ++ e2)),
         .ledgerRemove chat_id thread_id user_id] ∧
      hasQuery (sdkStream chat_id thread_id user_id verbose env) = false) ∧
    (env.connect2 = none →
      sdkStream chat_id thread_id user_id verbose env =
        .ledgerAdd chat_id thread_id user_id :: .connectAttempt :: .disconnect ::
          .newHandle :: .connectAttempt ::
          (sdkBody verbose env.feed env.exc ++
            [.ledgerRemove chat_id thread_id user_id])) := by
  constructor
  · intro e2 h2
    constructor
    · simp [sdkStream, hpre, h1, h2]
    · simp [sdkStream, hpre, h1, h2, hasQuery, isQueryAct]
  · intro h2
    simp [sdkStream, hpre, h1, h2]

theorem claim_C8_connect_retry_witness :
    sdkStream 1 0 5 false ⟨some "boom1", some "boom2", [], none, none⟩ =
      [.ledgerAdd 1 0 5, .connectAttempt, .disconnect, .newHandle, .connectAttempt,
       .yieldEv (.error ("Failed to connect to Claude: " ++ "boom2")),
       .ledgerRemove 1 0 5] ∧
    hasQuery (sdkStream 1 0 5 false ⟨some "boom1", some "boom2", [], none, none⟩) = false := by
  exact (claim_C8_connect_retry 1 0 5 false
    ⟨some "boom1", some "boom2", [], none, none⟩ "boom1" rfl rfl).1 "boom2" rfl

end OpenClaude
